import Mathlib

/-!
# keyrotator — verification of the spec against the code

Shallow embedding of `src/keyrotator/keyrotator.py`, a CLI utility that
lists, creates, deletes and bulk-cleans Google Cloud service-account keys
through a remote IAM API.  The argument parser, the dispatch table and the
four handler functions (`Cleanup`, `Create`, `Delete`, `List`) are embedded
from the source file.  The four command classes (`CleanupCommand`,
`CreateCommand`, `DeleteCommand`, `ListCommand`) are imported by the source
from modules that are not part of the repository snapshot, so their `run`
methods are modelled from the specification and from the handler
docstrings in `keyrotator.py`.
-/

namespace Keyrotator

/-- A service-account key as returned by the remote list call; `ageDays`
is the key's age in days at the time of the call. -/
structure Key where
  keyId : String
  ageDays : Int
  deriving DecidableEq, Repr

/-- A remote-procedure call issued to the IAM API. -/
inductive RemoteCall where
  | listKeys (projectId iamAccount : String)
  | createKey (projectId iamAccount keyType keyAlgorithm : String)
  | deleteKey (projectId iamAccount keyId : String)
  deriving DecidableEq, Repr

/-- Where the created key material is written. -/
inductive OutputDest where
  | stdout
  | file (name : String)
  deriving DecidableEq, Repr

/-- The remote API, modelled as an oracle: for each possible request it
fixes the response the server would give. -/
structure RemoteApi where
  listResult : String → String → Except String (List Key)
  createResult : String → String → String → String → Except String String
  deleteResult : String → String → String → Except String Unit

/-- The observable outcome of one command object's `run` method: the
remote calls it issued (in order), the error messages it printed, the key
material it wrote, and the status code it returned. -/
structure CommandOutcome where
  calls : List RemoteCall
  errors : List String
  outputs : List (OutputDest × String)
  status : Nat
  deriving DecidableEq, Repr

/-- The observable outcome of a whole process run: the remote calls, the
printed errors, the written key material, and the process exit code. -/
structure ProcessResult where
  calls : List RemoteCall
  errors : List String
  outputs : List (OutputDest × String)
  exitCode : Nat
  deriving DecidableEq, Repr

/-- `sys.exit(command.run(...))`: the process exits with the status code
returned by the command's `run` method, publishing the run's effects. -/
def sysExit (o : CommandOutcome) : ProcessResult :=
  { calls := o.calls, errors := o.errors, outputs := o.outputs,
    exitCode := o.status }

/-- Modelled from the spec: the key set the cleanup command deletes.
`cleanup.py` (`CleanupCommand`) is not in the repository snapshot; the
spec describes cleanup as `keys.filter(age > maxAge).forEach(delete)` and
the `--key-max-age` help text says keys of age up to the bound are
excluded from deletion and older keys are deleted. -/
def cleanupDeletedKeys (keys : List Key) (keyMaxAge : Int) : List Key :=
  keys.filter (fun k => keyMaxAge < k.ageDays)

/-- Modelled from the spec: the delete phase of cleanup issues one delete
call per filtered key, in list order, collecting any error messages. -/
def cleanupDeleteLoop (api : RemoteApi) (projectId iamAccount : String) :
    List Key → List RemoteCall × List String
  | [] => ([], [])
  | k :: rest =>
      let tail := cleanupDeleteLoop api projectId iamAccount rest
      match api.deleteResult projectId iamAccount k.keyId with
      | .ok _ =>
          (.deleteKey projectId iamAccount k.keyId :: tail.1, tail.2)
      | .error e =>
          (.deleteKey projectId iamAccount k.keyId :: tail.1, e :: tail.2)

/-- Modelled from the spec: `CleanupCommand.run` (module `cleanup` is not
in the snapshot).  Per the spec and the `Cleanup` docstring: (1) list the
keys of the project/account, (2) keep those whose age exceeds
`keyMaxAge`, (3) delete each of those; a failed remote call prints the
error and yields a non-zero status. -/
def cleanupRun (api : RemoteApi) (projectId iamAccount : String)
    (keyMaxAge : Int) : CommandOutcome :=
  match api.listResult projectId iamAccount with
  | .error e =>
      { calls := [.listKeys projectId iamAccount], errors := [e],
        outputs := [], status := 1 }
  | .ok keys =>
      let doomed := cleanupDeletedKeys keys keyMaxAge
      let deletePhase := cleanupDeleteLoop api projectId iamAccount doomed
      { calls := .listKeys projectId iamAccount :: deletePhase.1,
        errors := deletePhase.2,
        outputs := [],
        status := if deletePhase.2.isEmpty then 0 else 1 }

/-- Modelled from the spec: `ListCommand.run` (module `list` is not in
the snapshot) performs the single remote list call; a failed call prints
the error and yields a non-zero status. -/
def listRun (api : RemoteApi) (projectId iamAccount : String) :
    CommandOutcome :=
  match api.listResult projectId iamAccount with
  | .error e =>
      { calls := [.listKeys projectId iamAccount], errors := [e],
        outputs := [], status := 1 }
  | .ok _ =>
      { calls := [.listKeys projectId iamAccount], errors := [],
        outputs := [], status := 0 }

/-- Modelled from the spec: `DeleteCommand.run` (module `delete` is not
in the snapshot) performs the single remote delete call; a failed call
prints the error and yields a non-zero status. -/
def deleteRun (api : RemoteApi) (projectId iamAccount keyId : String) :
    CommandOutcome :=
  match api.deleteResult projectId iamAccount keyId with
  | .error e =>
      { calls := [.deleteKey projectId iamAccount keyId], errors := [e],
        outputs := [], status := 1 }
  | .ok _ =>
      { calls := [.deleteKey projectId iamAccount keyId], errors := [],
        outputs := [], status := 0 }

/-- Modelled from the spec: `CreateCommand.run` (module `create` is not
in the snapshot).  Per the `Create` docstring: an omitted key type
defaults to `TYPE_GOOGLE_CREDENTIALS_FILE`, an omitted key algorithm to
`KEY_ALG_RSA_4096`, and with no output file the key is written to
stdout; a failed remote call prints the error and yields a non-zero
status. -/
def createRun (api : RemoteApi) (projectId iamAccount : String)
    (keyType keyAlgorithm outputFile : Option String) : CommandOutcome :=
  let kt := keyType.getD "TYPE_GOOGLE_CREDENTIALS_FILE"
  let ka := keyAlgorithm.getD "KEY_ALG_RSA_4096"
  match api.createResult projectId iamAccount kt ka with
  | .error e =>
      { calls := [.createKey projectId iamAccount kt ka], errors := [e],
        outputs := [], status := 1 }
  | .ok material =>
      let dest := match outputFile with
        | none => OutputDest.stdout
        | some f => OutputDest.file f
      { calls := [.createKey projectId iamAccount kt ka], errors := [],
        outputs := [(dest, material)], status := 0 }

/-- Accumulate decimal digits; any non-digit character fails.  Helper
for the model of `type=int` conversion. -/
def natOfDigitsAux : List Char → Nat → Option Nat
  | [], acc => some acc
  | c :: cs, acc =>
      if c.isDigit then natOfDigitsAux cs (10 * acc + (c.toNat - 48))
      else none

/-- The integer conversion argparse applies to a `type=int` flag's
value (Python `int(...)` on an optionally minus-signed digit string):
`some` the integer when the token is a well-formed integer literal,
`none` otherwise. -/
def parseIntToken (s : String) : Option Int :=
  match s.data with
  | [] => none
  | '-' :: cs =>
      match cs with
      | [] => none
      | _ :: _ => (natOfDigitsAux cs 0).map (fun n => -(n : Int))
  | cs => (natOfDigitsAux cs 0).map (fun n => (n : Int))

/-- One `add_argument` line of a subparser: the flag's name, whether it
is `required=True`, and whether it carries `type=int`. -/
structure FlagSpec where
  name : String
  required : Bool
  isInt : Bool
  deriving DecidableEq, Repr

/-- The handler a subparser binds through `set_defaults(func=...)`. -/
inductive CommandFunc where
  | cleanup
  | create
  | delete
  | list
  deriving DecidableEq, Repr

/-- One `add_parser` block: the subcommand's name, its flags, and its
bound handler. -/
structure SubparserSpec where
  name : String
  flags : List FlagSpec
  func : CommandFunc
  deriving DecidableEq, Repr

/-- `_init_arg_parser` (keyrotator.py, lines 29-78): the four subparsers
in source order, each with the flags the source adds to it. -/
def argParserSubcommands : List SubparserSpec :=
  [ { name := "cleanup",
      flags := [ { name := "--project-id", required := true, isInt := false },
                 { name := "--iam-account", required := true, isInt := false },
                 { name := "--key-max-age", required := true, isInt := true } ],
      func := .cleanup },
    { name := "create",
      flags := [ { name := "--project-id", required := true, isInt := false },
                 { name := "--iam-account", required := true, isInt := false },
                 { name := "--key-type", required := false, isInt := false },
                 { name := "--key-algorithm", required := false, isInt := false },
                 { name := "--output-file", required := false, isInt := false } ],
      func := .create },
    { name := "delete",
      flags := [ { name := "--project-id", required := true, isInt := false },
                 { name := "--iam-account", required := true, isInt := false },
                 { name := "--key-id", required := true, isInt := false } ],
      func := .delete },
    { name := "list",
      flags := [ { name := "--project-id", required := true, isInt := false },
                 { name := "--iam-account", required := true, isInt := false } ],
      func := .list } ]

/-- The result of a successful parse: the chosen subcommand with its
flag values, typed as the handlers consume them. -/
inductive ParsedArgs where
  | cleanup (projectId iamAccount : String) (keyMaxAge : Int)
  | create (projectId iamAccount : String)
      (keyType keyAlgorithm outputFile : Option String)
  | delete (projectId iamAccount keyId : String)
  | list (projectId iamAccount : String)
  deriving DecidableEq, Repr

/-- Split the tokens after the subcommand into `--flag value` pairs, as
argparse does for the optional arguments declared here. -/
def parsePairs : List String → Except String (List (String × String))
  | [] => .ok []
  | [flag] => .error (flag ++ ": expected one argument")
  | flag :: value :: rest =>
      match parsePairs rest with
      | .error e => .error e
      | .ok tail => .ok ((flag, value) :: tail)

/-- The value given for a flag, if any. -/
def flagValue (pairs : List (String × String)) (name : String) :
    Option String :=
  (pairs.find? (fun p => p.1 == name)).map (fun p => p.2)

/-- argparse's validation against a subparser's declared flags: every
given flag is declared, every `required=True` flag is given, and every
`type=int` flag's value parses as an integer. -/
def pairsValid (sub : SubparserSpec) (pairs : List (String × String)) :
    Bool :=
  pairs.all (fun p => sub.flags.any (fun f => f.name == p.1)) &&
  sub.flags.all (fun f => !f.required || pairs.any (fun p => p.1 == f.name)) &&
  sub.flags.all (fun f =>
    !f.isInt || pairs.all (fun p => p.1 != f.name || (parseIntToken p.2).isSome))

/-- Assemble the parsed namespace for the handler bound to the chosen
subparser, reading each flag the handler consumes. -/
def buildArgs : CommandFunc → List (String × String) → Option ParsedArgs
  | .cleanup, pairs =>
      match flagValue pairs "--project-id", flagValue pairs "--iam-account",
          (flagValue pairs "--key-max-age").bind parseIntToken with
      | some p, some a, some m => some (.cleanup p a m)
      | _, _, _ => none
  | .create, pairs =>
      match flagValue pairs "--project-id", flagValue pairs "--iam-account" with
      | some p, some a =>
          some (.create p a (flagValue pairs "--key-type")
            (flagValue pairs "--key-algorithm")
            (flagValue pairs "--output-file"))
      | _, _ => none
  | .delete, pairs =>
      match flagValue pairs "--project-id", flagValue pairs "--iam-account",
          flagValue pairs "--key-id" with
      | some p, some a, some k => some (.delete p a k)
      | _, _, _ => none
  | .list, pairs =>
      match flagValue pairs "--project-id", flagValue pairs "--iam-account" with
      | some p, some a => some (.list p a)
      | _, _ => none

/-- `arg_parser.parse_args()`: pick the subparser named by the first
token, split and validate the remaining tokens against its flags, and
build the namespace for its handler.  Any violation is a parse error (on
which argparse prints a usage message and exits with status 2). -/
def parseArgs (cmdline : List String) : Except String ParsedArgs :=
  match cmdline with
  | [] => .error "no subcommand given"
  | sub :: rest =>
      match argParserSubcommands.find? (fun s => s.name == sub) with
      | none => .error ("invalid choice: " ++ sub)
      | some s =>
          match parsePairs rest with
          | .error e => .error e
          | .ok pairs =>
              if pairsValid s pairs then
                match buildArgs s.func pairs with
                | some args => .ok args
                | none => .error "missing required argument"
              else .error "invalid arguments"

/-- Dispatch: the `run` call the handler bound to the parsed subcommand
makes on its command object, with the parsed flag values. -/
def commandRun (api : RemoteApi) : ParsedArgs → CommandOutcome
  | .cleanup p a m => cleanupRun api p a m
  | .create p a t alg out => createRun api p a t alg out
  | .delete p a k => deleteRun api p a k
  | .list p a => listRun api p a

/-- Each handler (`Cleanup`, `Create`, `Delete`, `List`) constructs its
command object and runs `sys.exit(command.run(...))`. -/
def runCommand (api : RemoteApi) (args : ParsedArgs) : ProcessResult :=
  sysExit (commandRun api args)

/-- `main()`: parse the command line and call `args.func(args)`; on a
parse error argparse exits with status 2 before any handler runs. -/
def mainRun (api : RemoteApi) (cmdline : List String) : ProcessResult :=
  match parseArgs cmdline with
  | .error e =>
      { calls := [], errors := [e], outputs := [], exitCode := 2 }
  | .ok args => runCommand api args

/-! ## Helper lemmas and sample data -/

/-- The delete phase issues exactly one delete call per key it is given,
in order, whatever the individual delete results are. -/
theorem cleanupDeleteLoop_calls (api : RemoteApi) (p a : String) :
    ∀ ks : List Key, (cleanupDeleteLoop api p a ks).1
      = ks.map (fun k => RemoteCall.deleteKey p a k.keyId)
  | [] => rfl
  | k :: rest => by
      simp only [cleanupDeleteLoop, List.map]
      cases api.deleteResult p a k.keyId <;>
        simp [cleanupDeleteLoop_calls api p a rest]

/-- A failed delete inside the delete phase leaves its error message in
the collected errors. -/
theorem cleanupDeleteLoop_error_mem (api : RemoteApi) (p a : String)
    (e : String) :
    ∀ ks : List Key, ∀ k ∈ ks, api.deleteResult p a k.keyId = .error e →
      e ∈ (cleanupDeleteLoop api p a ks).2
  | k0 :: rest, k, hk, herr => by
      simp only [cleanupDeleteLoop]
      rcases List.mem_cons.mp hk with h | h
      · subst h
        rw [herr]
        exact List.mem_cons_self e _
      · have ih := cleanupDeleteLoop_error_mem api p a e rest k h herr
        cases api.deleteResult p a k0.keyId with
        | ok _ => exact ih
        | error e2 => exact List.mem_cons_of_mem e2 ih

/-- A fixed set of keys used to instantiate the theorems: one well past
the age bound, one young, one exactly at the bound. -/
def sampleKeys : List Key :=
  [⟨"old", 120⟩, ⟨"fresh", 10⟩, ⟨"edge", 90⟩]

/-- A concrete remote API on which every call succeeds. -/
def sampleApi : RemoteApi :=
  { listResult := fun _ _ => .ok sampleKeys,
    createResult := fun _ _ _ _ => .ok "KEYMATERIAL",
    deleteResult := fun _ _ _ => .ok () }

/-! ## Claims about the cleanup command -/

/-- C1: for every project id, service account and integer key-max-age,
cleanup is the composition: list the account's keys, filter them to those
whose age in days is strictly greater than key-max-age, and issue delete
calls for exactly that filtered set, in that order (the list call first,
then one delete per filtered key). -/
theorem cleanup_is_list_filter_delete (api : RemoteApi)
    (projectId iamAccount : String) (keyMaxAge : Int) (keys : List Key)
    (h : api.listResult projectId iamAccount = .ok keys) :
    (cleanupRun api projectId iamAccount keyMaxAge).calls
      = RemoteCall.listKeys projectId iamAccount ::
        (keys.filter (fun k => keyMaxAge < k.ageDays)).map
          (fun k => RemoteCall.deleteKey projectId iamAccount k.keyId) := by
  simp [cleanupRun, h, cleanupDeletedKeys, cleanupDeleteLoop_calls]

/-- Witness for C1 on the sample API: cleanup with bound 90 lists, then
deletes exactly the filtered keys. -/
theorem cleanup_is_list_filter_delete_witness :
    (cleanupRun sampleApi "p" "a" 90).calls
      = RemoteCall.listKeys "p" "a" ::
        (sampleKeys.filter (fun k => (90 : Int) < k.ageDays)).map
          (fun k => RemoteCall.deleteKey "p" "a" k.keyId) :=
  cleanup_is_list_filter_delete sampleApi "p" "a" 90 sampleKeys rfl

/-- C2: a listed key whose age is at most key-max-age (the age equal to
key-max-age included) is not in cleanup's deleted set; every key of the
deleted set is strictly older than key-max-age, and every delete call
cleanup issues names a key of the deleted set. -/
theorem cleanup_spares_young_keys (api : RemoteApi)
    (projectId iamAccount : String) (keyMaxAge : Int) (keys : List Key)
    (k : Key)
    (hlist : api.listResult projectId iamAccount = .ok keys)
    (_hmem : k ∈ keys) (hage : k.ageDays ≤ keyMaxAge) :
    k ∉ cleanupDeletedKeys keys keyMaxAge ∧
    (∀ k2 ∈ cleanupDeletedKeys keys keyMaxAge, keyMaxAge < k2.ageDays) ∧
    (∀ kid, RemoteCall.deleteKey projectId iamAccount kid
        ∈ (cleanupRun api projectId iamAccount keyMaxAge).calls →
      kid ∈ (cleanupDeletedKeys keys keyMaxAge).map Key.keyId) := by
  refine ⟨?_, ?_, ?_⟩
  · simp only [cleanupDeletedKeys, List.mem_filter, decide_eq_true_eq]
    rintro ⟨-, hlt⟩
    omega
  · intro k2 hk2
    simp only [cleanupDeletedKeys, List.mem_filter, decide_eq_true_eq] at hk2
    exact hk2.2
  · intro kid hcall
    simp only [cleanupRun, hlist] at hcall
    rw [cleanupDeleteLoop_calls] at hcall
    rcases List.mem_cons.mp hcall with h | h
    · exact absurd h (by simp)
    · rcases List.mem_map.mp h with ⟨k2, hk2, heq⟩
      cases heq
      exact List.mem_map.mpr ⟨k2, hk2, rfl⟩

/-- Witness for C2 on the sample API: the key aged exactly 90 days is
spared by cleanup with bound 90. -/
theorem cleanup_spares_young_keys_witness :
    (⟨"edge", 90⟩ : Key) ∉ cleanupDeletedKeys sampleKeys 90 ∧
    (∀ k2 ∈ cleanupDeletedKeys sampleKeys 90, (90 : Int) < k2.ageDays) ∧
    (∀ kid, RemoteCall.deleteKey "p" "a" kid
        ∈ (cleanupRun sampleApi "p" "a" 90).calls →
      kid ∈ (cleanupDeletedKeys sampleKeys 90).map Key.keyId) :=
  cleanup_spares_young_keys sampleApi "p" "a" 90 sampleKeys ⟨"edge", 90⟩
    rfl (by decide) (by decide)

/-- C3: every delete call cleanup issues targets the given project id and
service account, and its key id was returned by the preceding list call;
cleanup never deletes a key the list response did not contain. -/
theorem cleanup_deletes_only_listed (api : RemoteApi)
    (projectId iamAccount : String) (keyMaxAge : Int)
    (p2 a2 kid : String)
    (hcall : RemoteCall.deleteKey p2 a2 kid
        ∈ (cleanupRun api projectId iamAccount keyMaxAge).calls) :
    p2 = projectId ∧ a2 = iamAccount ∧
    ∃ keys, api.listResult projectId iamAccount = .ok keys ∧
      ∃ k ∈ keys, k.keyId = kid := by
  cases hlist : api.listResult projectId iamAccount with
  | error e => simp [cleanupRun, hlist] at hcall
  | ok keys =>
      simp only [cleanupRun, hlist] at hcall
      rw [cleanupDeleteLoop_calls] at hcall
      rcases List.mem_cons.mp hcall with h | h
      · exact absurd h (by simp)
      · rcases List.mem_map.mp h with ⟨k, hk, heq⟩
        obtain ⟨hp, ha, hkid⟩ := RemoteCall.deleteKey.inj heq.symm
        refine ⟨hp, ha, keys, rfl, k, ?_, hkid.symm⟩
        exact (List.mem_filter.mp hk).1

/-- Witness for C3 on the sample API: the delete of key "old" issued by
cleanup traces back to the list response. -/
theorem cleanup_deletes_only_listed_witness :
    "p" = "p" ∧ "a" = "a" ∧
    ∃ keys, sampleApi.listResult "p" "a" = .ok keys ∧
      ∃ k ∈ keys, k.keyId = "old" :=
  cleanup_deletes_only_listed sampleApi "p" "a" 90 "p" "a" "old" (by decide)

/-- A concrete remote API on which every call fails. -/
def failApi : RemoteApi :=
  { listResult := fun _ _ => .error "list failed",
    createResult := fun _ _ _ _ => .error "create failed",
    deleteResult := fun _ _ _ => .error "delete failed" }

/-- A concrete remote API on which listing succeeds and deleting fails. -/
def deleteFailApi : RemoteApi :=
  { listResult := fun _ _ => .ok sampleKeys,
    createResult := fun _ _ _ _ => .ok "KEYMATERIAL",
    deleteResult := fun _ _ _ => .error "delete failed" }

/-! ## Claims about the CLI as a whole -/

/-- C4: the parser declares exactly the four subcommands cleanup,
create, delete, list; each is bound to the handler of the same name;
the dispatched handler runs the matching command; the entry point hands a
successfully parsed command line to exactly that dispatch; and each of
list, create and delete issues a single remote call. -/
theorem cli_four_subcommands_and_dispatch (api : RemoteApi) :
    argParserSubcommands.map SubparserSpec.name
        = ["cleanup", "create", "delete", "list"] ∧
    ((argParserSubcommands.find? (fun s => s.name == "cleanup")).map
        SubparserSpec.func = some CommandFunc.cleanup ∧
      (argParserSubcommands.find? (fun s => s.name == "create")).map
        SubparserSpec.func = some CommandFunc.create ∧
      (argParserSubcommands.find? (fun s => s.name == "delete")).map
        SubparserSpec.func = some CommandFunc.delete ∧
      (argParserSubcommands.find? (fun s => s.name == "list")).map
        SubparserSpec.func = some CommandFunc.list) ∧
    (∀ p a m, commandRun api (ParsedArgs.cleanup p a m)
        = cleanupRun api p a m) ∧
    (∀ p a t alg o, commandRun api (ParsedArgs.create p a t alg o)
        = createRun api p a t alg o) ∧
    (∀ p a k, commandRun api (ParsedArgs.delete p a k)
        = deleteRun api p a k) ∧
    (∀ p a, commandRun api (ParsedArgs.list p a) = listRun api p a) ∧
    (∀ cmdline args, parseArgs cmdline = Except.ok args →
        mainRun api cmdline = runCommand api args) ∧
    (∀ p a, (listRun api p a).calls.length = 1) ∧
    (∀ p a t alg o, (createRun api p a t alg o).calls.length = 1) ∧
    (∀ p a k, (deleteRun api p a k).calls.length = 1) := by
  refine ⟨rfl, ⟨rfl, rfl, rfl, rfl⟩, fun _ _ _ => rfl, fun _ _ _ _ _ => rfl,
    fun _ _ _ => rfl, fun _ _ => rfl, ?_, ?_, ?_, ?_⟩
  · intro cmdline args h
    simp [mainRun, h]
  · intro p a
    cases h : api.listResult p a <;> simp [listRun, h]
  · intro p a t alg o
    cases h : api.createResult p a (t.getD "TYPE_GOOGLE_CREDENTIALS_FILE")
        (alg.getD "KEY_ALG_RSA_4096") <;> simp [createRun, h]
  · intro p a k
    cases h : api.deleteResult p a k <;> simp [deleteRun, h]

/-- Witness for C4: a parsed list command line is dispatched to the list
command's run. -/
theorem cli_four_subcommands_and_dispatch_witness :
    mainRun sampleApi ["list", "--project-id", "p", "--iam-account", "a"]
      = runCommand sampleApi (ParsedArgs.list "p" "a") :=
  (cli_four_subcommands_and_dispatch sampleApi).2.2.2.2.2.2.1
    ["list", "--project-id", "p", "--iam-account", "a"]
    (ParsedArgs.list "p" "a") rfl

/-- C5: whichever of the four operations runs, a failed remote call
leaves its error message among the printed errors and makes the run's
status non-zero: the list call of list, the create call of create, the
delete call of delete, and for cleanup both its list call and any failed
delete of the delete phase. -/
theorem failed_call_prints_error_and_nonzero (api : RemoteApi) :
    (∀ p a e, api.listResult p a = .error e →
      (listRun api p a).errors = [e] ∧ (listRun api p a).status ≠ 0) ∧
    (∀ p a t alg o e,
      api.createResult p a (t.getD "TYPE_GOOGLE_CREDENTIALS_FILE")
          (alg.getD "KEY_ALG_RSA_4096") = .error e →
      (createRun api p a t alg o).errors = [e] ∧
        (createRun api p a t alg o).status ≠ 0) ∧
    (∀ p a k e, api.deleteResult p a k = .error e →
      (deleteRun api p a k).errors = [e] ∧
        (deleteRun api p a k).status ≠ 0) ∧
    (∀ p a m e, api.listResult p a = .error e →
      (cleanupRun api p a m).errors = [e] ∧
        (cleanupRun api p a m).status ≠ 0) ∧
    (∀ p a m e keys k, api.listResult p a = .ok keys →
      k ∈ cleanupDeletedKeys keys m →
      api.deleteResult p a k.keyId = .error e →
      e ∈ (cleanupRun api p a m).errors ∧
        (cleanupRun api p a m).status ≠ 0) := by
  refine ⟨?_, ?_, ?_, ?_, ?_⟩
  · intro p a e h
    exact ⟨by simp [listRun, h], by simp [listRun, h]⟩
  · intro p a t alg o e h
    exact ⟨by simp [createRun, h], by simp [createRun, h]⟩
  · intro p a k e h
    exact ⟨by simp [deleteRun, h], by simp [deleteRun, h]⟩
  · intro p a m e h
    exact ⟨by simp [cleanupRun, h], by simp [cleanupRun, h]⟩
  · intro p a m e keys k hlist hk hdel
    have hmem : e ∈ (cleanupDeleteLoop api p a
        (cleanupDeletedKeys keys m)).2 :=
      cleanupDeleteLoop_error_mem api p a e (cleanupDeletedKeys keys m)
        k hk hdel
    constructor
    · simpa [cleanupRun, hlist] using hmem
    · have hne : ¬ (cleanupDeleteLoop api p a
          (cleanupDeletedKeys keys m)).2.isEmpty := by
        simp only [List.isEmpty_iff]
        intro hnil
        rw [hnil] at hmem
        exact List.not_mem_nil e hmem
      simp [cleanupRun, hlist, hne]

/-- Witness for C5: each operation run against the all-failing API (and
cleanup's delete phase against the delete-failing API) prints the error
and returns a non-zero status. -/
theorem failed_call_prints_error_and_nonzero_witness :
    ((listRun failApi "p" "a").errors = ["list failed"] ∧
      (listRun failApi "p" "a").status ≠ 0) ∧
    ((createRun failApi "p" "a" none none none).errors = ["create failed"] ∧
      (createRun failApi "p" "a" none none none).status ≠ 0) ∧
    ((deleteRun failApi "p" "a" "k").errors = ["delete failed"] ∧
      (deleteRun failApi "p" "a" "k").status ≠ 0) ∧
    ((cleanupRun failApi "p" "a" 90).errors = ["list failed"] ∧
      (cleanupRun failApi "p" "a" 90).status ≠ 0) ∧
    ("delete failed" ∈ (cleanupRun deleteFailApi "p" "a" 90).errors ∧
      (cleanupRun deleteFailApi "p" "a" 90).status ≠ 0) :=
  ⟨(failed_call_prints_error_and_nonzero failApi).1 "p" "a" _ rfl,
    (failed_call_prints_error_and_nonzero failApi).2.1
      "p" "a" none none none _ rfl,
    (failed_call_prints_error_and_nonzero failApi).2.2.1 "p" "a" "k" _ rfl,
    (failed_call_prints_error_and_nonzero failApi).2.2.2.1 "p" "a" 90 _ rfl,
    (failed_call_prints_error_and_nonzero deleteFailApi).2.2.2.2
      "p" "a" 90 _ sampleKeys ⟨"old", 120⟩ rfl (by decide) rfl⟩

/-- C6: on a successfully parsed command line the process exit code is
exactly the status returned by the dispatched command's run, and the
entry point adds no remote calls, errors or outputs beyond the run's
own. -/
theorem exit_code_is_run_status (api : RemoteApi) (cmdline : List String)
    (args : ParsedArgs) (h : parseArgs cmdline = .ok args) :
    (mainRun api cmdline).exitCode = (commandRun api args).status ∧
    (mainRun api cmdline).calls = (commandRun api args).calls ∧
    (mainRun api cmdline).errors = (commandRun api args).errors ∧
    (mainRun api cmdline).outputs = (commandRun api args).outputs := by
  simp [mainRun, h, runCommand, sysExit]

/-- Witness for C6: on a concrete list invocation the process exit code
equals the list run's status. -/
theorem exit_code_is_run_status_witness :
    (mainRun sampleApi
        ["list", "--project-id", "p", "--iam-account", "a"]).exitCode
      = (commandRun sampleApi (ParsedArgs.list "p" "a")).status ∧
    (mainRun sampleApi
        ["list", "--project-id", "p", "--iam-account", "a"]).calls
      = (commandRun sampleApi (ParsedArgs.list "p" "a")).calls ∧
    (mainRun sampleApi
        ["list", "--project-id", "p", "--iam-account", "a"]).errors
      = (commandRun sampleApi (ParsedArgs.list "p" "a")).errors ∧
    (mainRun sampleApi
        ["list", "--project-id", "p", "--iam-account", "a"]).outputs
      = (commandRun sampleApi (ParsedArgs.list "p" "a")).outputs :=
  exit_code_is_run_status sampleApi
    ["list", "--project-id", "p", "--iam-account", "a"]
    (ParsedArgs.list "p" "a") rfl

/-- C7: per subcommand, the parser declares exactly the flags of the
source: cleanup requires project id, IAM account and an integer
key-max-age; create requires project id and IAM account and optionally
takes key type, key algorithm and output file; delete requires project
id, IAM account and key id; list requires project id and IAM account.
A full command line for each subcommand is accepted, with the optional
create flags defaulting to none. -/
theorem parser_accepts_exactly_source_flags :
    ((argParserSubcommands.find? (fun s => s.name == "cleanup")).map
        SubparserSpec.flags
      = some [⟨"--project-id", true, false⟩, ⟨"--iam-account", true, false⟩,
              ⟨"--key-max-age", true, true⟩]) ∧
    ((argParserSubcommands.find? (fun s => s.name == "create")).map
        SubparserSpec.flags
      = some [⟨"--project-id", true, false⟩, ⟨"--iam-account", true, false⟩,
              ⟨"--key-type", false, false⟩, ⟨"--key-algorithm", false, false⟩,
              ⟨"--output-file", false, false⟩]) ∧
    ((argParserSubcommands.find? (fun s => s.name == "delete")).map
        SubparserSpec.flags
      = some [⟨"--project-id", true, false⟩, ⟨"--iam-account", true, false⟩,
              ⟨"--key-id", true, false⟩]) ∧
    ((argParserSubcommands.find? (fun s => s.name == "list")).map
        SubparserSpec.flags
      = some [⟨"--project-id", true, false⟩,
              ⟨"--iam-account", true, false⟩]) ∧
    (∀ p a s m, parseIntToken s = some m →
      parseArgs ["cleanup", "--project-id", p, "--iam-account", a,
          "--key-max-age", s]
        = .ok (ParsedArgs.cleanup p a m)) ∧
    (∀ p a, parseArgs ["create", "--project-id", p, "--iam-account", a]
        = .ok (ParsedArgs.create p a none none none)) ∧
    (∀ p a k, parseArgs ["delete", "--project-id", p, "--iam-account", a,
          "--key-id", k]
        = .ok (ParsedArgs.delete p a k)) ∧
    (∀ p a, parseArgs ["list", "--project-id", p, "--iam-account", a]
        = .ok (ParsedArgs.list p a)) := by
  refine ⟨rfl, rfl, rfl, rfl, ?_, fun p a => rfl, fun p a k => rfl,
    fun p a => rfl⟩
  intro p a s m h
  simp [parseArgs, parsePairs, pairsValid, buildArgs, flagValue,
    argParserSubcommands, h]

/-- Witness for C7: the full cleanup command line with key-max-age 120
parses to the cleanup namespace. -/
theorem parser_accepts_exactly_source_flags_witness :
    parseArgs ["cleanup", "--project-id", "p", "--iam-account", "a",
        "--key-max-age", "120"]
      = .ok (ParsedArgs.cleanup "p" "a" 120) :=
  parser_accepts_exactly_source_flags.2.2.2.2.1 "p" "a" "120" 120 (by decide)

/-- C8: the tool is stateless and deterministic: two runs on equal
command lines against equal remote responses issue the same remote
calls in the same order and exit with the same code, and every parsed
command line selects exactly one of the four operations. -/
theorem stateless_same_inputs_same_behavior :
    (∀ api1 api2 cmdline1 cmdline2, api1 = api2 → cmdline1 = cmdline2 →
      (mainRun api1 cmdline1).calls = (mainRun api2 cmdline2).calls ∧
      (mainRun api1 cmdline1).exitCode = (mainRun api2 cmdline2).exitCode) ∧
    (∀ args : ParsedArgs,
      (∃ p a m, args = ParsedArgs.cleanup p a m) ∨
      (∃ p a t alg o, args = ParsedArgs.create p a t alg o) ∨
      (∃ p a k, args = ParsedArgs.delete p a k) ∨
      (∃ p a, args = ParsedArgs.list p a)) := by
  constructor
  · rintro api1 api2 c1 c2 rfl rfl
    exact ⟨rfl, rfl⟩
  · intro args
    cases args with
    | cleanup p a m => exact Or.inl ⟨p, a, m, rfl⟩
    | create p a t alg o => exact Or.inr (Or.inl ⟨p, a, t, alg, o, rfl⟩)
    | delete p a k => exact Or.inr (Or.inr (Or.inl ⟨p, a, k, rfl⟩))
    | list p a => exact Or.inr (Or.inr (Or.inr ⟨p, a, rfl⟩))

/-- Witness for C8: two runs of the same concrete list invocation
against the same API agree on calls and exit code. -/
theorem stateless_same_inputs_same_behavior_witness :
    (mainRun sampleApi
        ["list", "--project-id", "p", "--iam-account", "a"]).calls
      = (mainRun sampleApi
          ["list", "--project-id", "p", "--iam-account", "a"]).calls ∧
    (mainRun sampleApi
        ["list", "--project-id", "p", "--iam-account", "a"]).exitCode
      = (mainRun sampleApi
          ["list", "--project-id", "p", "--iam-account", "a"]).exitCode :=
  stateless_same_inputs_same_behavior.1 sampleApi sampleApi
    ["list", "--project-id", "p", "--iam-account", "a"]
    ["list", "--project-id", "p", "--iam-account", "a"] rfl rfl

/-- C9: create with key type omitted calls the API with
TYPE_GOOGLE_CREDENTIALS_FILE, with key algorithm omitted with
KEY_ALG_RSA_4096, and with output file omitted writes the resulting key
material to stdout. -/
theorem create_defaults (api : RemoteApi) (p a : String) :
    (∀ alg o, (createRun api p a none alg o).calls
      = [RemoteCall.createKey p a "TYPE_GOOGLE_CREDENTIALS_FILE"
          (alg.getD "KEY_ALG_RSA_4096")]) ∧
    (∀ t o, (createRun api p a t none o).calls
      = [RemoteCall.createKey p a (t.getD "TYPE_GOOGLE_CREDENTIALS_FILE")
          "KEY_ALG_RSA_4096"]) ∧
    (∀ t alg material,
      api.createResult p a (t.getD "TYPE_GOOGLE_CREDENTIALS_FILE")
          (alg.getD "KEY_ALG_RSA_4096") = .ok material →
      (createRun api p a t alg none).outputs
        = [(OutputDest.stdout, material)]) := by
  refine ⟨?_, ?_, ?_⟩
  · intro alg o
    cases h : api.createResult p a "TYPE_GOOGLE_CREDENTIALS_FILE"
        (alg.getD "KEY_ALG_RSA_4096") <;> simp [createRun, h]
  · intro t o
    cases h : api.createResult p a (t.getD "TYPE_GOOGLE_CREDENTIALS_FILE")
        "KEY_ALG_RSA_4096" <;> simp [createRun, h]
  · intro t alg material h
    simp [createRun, h]

/-- Witness for C9: a create run with every optional flag omitted calls
the API with both defaults and writes the sample key material to
stdout. -/
theorem create_defaults_witness :
    (createRun sampleApi "p" "a" none none none).calls
      = [RemoteCall.createKey "p" "a" "TYPE_GOOGLE_CREDENTIALS_FILE"
          "KEY_ALG_RSA_4096"] ∧
    (createRun sampleApi "p" "a" none none none).outputs
      = [(OutputDest.stdout, "KEYMATERIAL")] :=
  ⟨(create_defaults sampleApi "p" "a").1 none none,
    (create_defaults sampleApi "p" "a").2.2 none none "KEYMATERIAL" rfl⟩

/-- A subparser rejects a pair list that lacks one of its required
flags. -/
theorem pairsValid_missing_required (s : SubparserSpec)
    (pairs : List (String × String)) (f : FlagSpec) (hf : f ∈ s.flags)
    (hreq : f.required = true) (habs : ∀ pr ∈ pairs, ¬ pr.1 = f.name) :
    pairsValid s pairs = false := by
  apply Bool.eq_false_iff.mpr
  intro hpv
  unfold pairsValid at hpv
  rw [Bool.and_eq_true, Bool.and_eq_true] at hpv
  have hP := List.all_eq_true.mp hpv.1.2 f hf
  rw [hreq] at hP
  simp only [Bool.not_true, Bool.false_or] at hP
  rcases List.any_eq_true.mp hP with ⟨pr, hpr, hname⟩
  exact habs pr hpr (by simpa using hname)

/-- A subparser rejects a pair list whose value for one of its integer
flags does not parse as an integer. -/
theorem pairsValid_nonint (s : SubparserSpec)
    (pairs : List (String × String)) (f : FlagSpec) (hf : f ∈ s.flags)
    (hint : f.isInt = true) (pr : String × String) (hpr : pr ∈ pairs)
    (hname : pr.1 = f.name) (hnone : parseIntToken pr.2 = none) :
    pairsValid s pairs = false := by
  apply Bool.eq_false_iff.mpr
  intro hpv
  unfold pairsValid at hpv
  rw [Bool.and_eq_true, Bool.and_eq_true] at hpv
  have hP := List.all_eq_true.mp hpv.2 f hf
  rw [hint] at hP
  simp only [Bool.not_true, Bool.false_or] at hP
  have hpair := List.all_eq_true.mp hP pr hpr
  rw [hname] at hpair
  simp [hnone] at hpair

/-- C10: a command line whose subcommand exists but which omits one of
the subcommand's required flags, or gives a non-integer value for one of
its integer flags, is a parse error: the process exits with argparse's
status 2 having issued no remote call, before any command object runs. -/
theorem required_flag_missing_exits_before_any_call (api : RemoteApi)
    (sub : String) (s : SubparserSpec) (rest : List String)
    (pairs : List (String × String))
    (hs : argParserSubcommands.find? (fun x => x.name == sub) = some s)
    (hp : parsePairs rest = .ok pairs)
    (hbad : (∃ f ∈ s.flags, f.required = true ∧
              ∀ pr ∈ pairs, ¬ pr.1 = f.name) ∨
            (∃ f ∈ s.flags, f.isInt = true ∧
              ∃ pr ∈ pairs, pr.1 = f.name ∧ parseIntToken pr.2 = none)) :
    parseArgs (sub :: rest) = .error "invalid arguments" ∧
    (mainRun api (sub :: rest)).calls = [] ∧
    (mainRun api (sub :: rest)).exitCode = 2 := by
  have hval : pairsValid s pairs = false := by
    rcases hbad with ⟨f, hf, hreq, habs⟩ | ⟨f, hf, hint, pr, hpr, hname, hnone⟩
    · exact pairsValid_missing_required s pairs f hf hreq habs
    · exact pairsValid_nonint s pairs f hf hint pr hpr hname hnone
  have hparse : parseArgs (sub :: rest) = .error "invalid arguments" := by
    simp [parseArgs, hs, hp, hval]
  exact ⟨hparse, by simp [mainRun, hparse], by simp [mainRun, hparse]⟩

/-- Witness for C10: delete without --key-id is rejected with exit code
2 and no remote call. -/
theorem required_flag_missing_exits_before_any_call_witness :
    parseArgs ["delete", "--project-id", "p", "--iam-account", "a"]
      = .error "invalid arguments" ∧
    (mainRun sampleApi
        ["delete", "--project-id", "p", "--iam-account", "a"]).calls = [] ∧
    (mainRun sampleApi
        ["delete", "--project-id", "p", "--iam-account", "a"]).exitCode
      = 2 :=
  required_flag_missing_exits_before_any_call sampleApi "delete"
    { name := "delete",
      flags := [⟨"--project-id", true, false⟩, ⟨"--iam-account", true, false⟩,
                ⟨"--key-id", true, false⟩],
      func := .delete }
    ["--project-id", "p", "--iam-account", "a"]
    [("--project-id", "p"), ("--iam-account", "a")]
    rfl rfl
    (Or.inl ⟨⟨"--key-id", true, false⟩, by decide, rfl, by decide⟩)

end Keyrotator
